import Mathlib

/-!
Verification development for the live audio translation app.

The definitions below are a shallow embedding of the app's audio pipeline:
the base64 transport codec (`encode`/`decode`), the PCM codec
(`createBlob`/`decodeAudioData`), the playback scheduler, the live-session
message handler (`handleServerMessage`), and the recording state machine
(`startRecording`/`stopRecording`/`handleMicClick`/`stopSession`).

Number representation: audio samples are modelled as rationals, byte values
as naturals, 16-bit PCM values as integers.  JavaScript machine-integer
conversions (ToInt16 and typed-array wrapping) are made explicit.
-/

namespace LiveTranslate

/-! ## Transport encoding

Source: `encode`/`decode` in types.ts (lines 51-69).  `encode` turns a byte
array into a binary string with `String.fromCharCode` and applies `btoa`;
`decode` applies `atob` and reads bytes back with `charCodeAt`.  At byte
level this composition is exactly RFC 4648 base64 with padding, which we
model chunk-wise below.  `atob` rejects strings that are not valid base64
(wrong length, characters outside the alphabet, misplaced padding); the
`none` results of `decode` model that rejection. -/

/-- Characters of the base64 alphabet used by btoa/atob, in sextet order. -/
def b64Alphabet : List Char :=
  "ABCDEFGHIJKLMNOPQRSTUVWXYZabcdefghijklmnopqrstuvwxyz0123456789+/".toList

/-- Character the encoder emits for a 6-bit value. -/
def sextetChar (n : Nat) : Char := b64Alphabet.getD n '?'

/-- Sextet value the decoder reads back from an alphabet character. -/
def charSextet (c : Char) : Nat := b64Alphabet.indexOf c

/-- Whether a character belongs to the base64 alphabet. -/
def isB64Char (c : Char) : Bool := b64Alphabet.contains c

/-- Base64 transport encoding of a byte sequence (types.ts `encode`:
`btoa` over the `String.fromCharCode` binary string), processed three
bytes at a time with `=` padding. -/
def encode : List Nat → List Char
  | [] => []
  | [b0] =>
      [sextetChar (b0 / 4), sextetChar (b0 % 4 * 16), '=', '=']
  | [b0, b1] =>
      [sextetChar (b0 / 4), sextetChar (b0 % 4 * 16 + b1 / 16),
       sextetChar (b1 % 16 * 4), '=']
  | b0 :: b1 :: b2 :: rest =>
      sextetChar (b0 / 4) :: sextetChar (b0 % 4 * 16 + b1 / 16) ::
      sextetChar (b1 % 16 * 4 + b2 / 64) :: sextetChar (b2 % 64) ::
      encode rest

/-- Base64 transport decoding back to bytes (types.ts `decode`: `atob`
then `charCodeAt` per position), processed four characters at a time;
`none` models the InvalidCharacterError `atob` throws on malformed
input. -/
def decode : List Char → Option (List Nat)
  | [] => some []
  | c0 :: c1 :: c2 :: c3 :: rest =>
      if isB64Char c0 ∧ isB64Char c1 then
        if c2 = '=' then
          if c3 = '=' ∧ rest = [] then
            some [charSextet c0 * 4 + charSextet c1 / 16]
          else none
        else if isB64Char c2 then
          if c3 = '=' then
            if rest = [] then
              some [charSextet c0 * 4 + charSextet c1 / 16,
                    charSextet c1 % 16 * 16 + charSextet c2 / 4]
            else none
          else if isB64Char c3 then
            (decode rest).map (fun tail =>
              (charSextet c0 * 4 + charSextet c1 / 16) ::
              (charSextet c1 % 16 * 16 + charSextet c2 / 4) ::
              (charSextet c2 % 4 * 64 + charSextet c3) :: tail)
          else none
        else none
      else none
  | _ => none

/-! ## PCM codec

Source: `createBlob` (types.ts lines 92-102), `createAudioBlobForLive`
(liveService, identical body) and `decodeAudioData` (types.ts lines 72-89).

`createBlob` executes `int16[i] = data[i] * 32768` on an `Int16Array`.
Per the JavaScript semantics of typed-array stores (ToInt16), the float
`data[i] * 32768` is truncated toward zero and then wrapped modulo 2^16
into the signed 16-bit range; `truncQ`, `wrap16` and `toInt16` spell this
out.  The `Int16Array` buffer is viewed as bytes in little-endian order
(`int16ToBytes`).

`decodeAudioData` builds an `Int16Array` view of the byte buffer (this
constructor throws a RangeError when the byte length is odd), computes
`frameCount = dataInt16.length / numChannels` and calls
`ctx.createBuffer(numChannels, frameCount, sampleRate)`.  A fractional
`frameCount` is truncated by the unsigned-long conversion, and
`createBuffer` throws NotSupportedError when the resulting length (or the
channel count) is zero.  The copy loop reads
`dataInt16[i * numChannels + channel] / 32768.0` for each kept frame;
writes past the truncated buffer length are discarded, so the observable
result is `numChannels` planar channels of `frameCount` samples. -/

/-- Truncation toward zero of a rational, as in the ToIntegerOrInfinity
step of the JavaScript ToInt16 conversion. -/
def truncQ (q : ℚ) : Int := if 0 ≤ q then ⌊q⌋ else ⌈q⌉

/-- Wrap an integer modulo 2^16 into the signed 16-bit range
[-32768, 32767], as in the final step of ToInt16. -/
def wrap16 (m : Int) : Int :=
  if m % 65536 < 32768 then m % 65536 else m % 65536 - 65536

/-- Value stored by the JavaScript assignment of a float to an
`Int16Array` slot: truncate toward zero, then wrap modulo 2^16. -/
def toInt16 (q : ℚ) : Int := wrap16 (truncQ q)

/-- Little-endian byte pair backing one `Int16Array` slot. -/
def int16ToBytes (n : Int) : List Nat :=
  [(n % 65536).toNat % 256, (n % 65536).toNat / 256]

/-- Signed 16-bit value read back from a little-endian byte pair by an
`Int16Array` view. -/
def int16OfBytes (lo hi : Nat) : Int :=
  if lo + 256 * hi < 32768 then ((lo + 256 * hi : Nat) : Int)
  else ((lo + 256 * hi : Nat) : Int) - 65536

/-- Interpretation of a byte buffer as an `Int16Array`
(`new Int16Array(data.buffer)` in `decodeAudioData`). -/
def bytesToInt16 : List Nat → List Int
  | [] => []
  | [_] => []
  | lo :: hi :: rest => int16OfBytes lo hi :: bytesToInt16 rest

/-- Media blob sent to the live service: transport-encoded PCM bytes plus
a MIME tag. -/
structure EncodedBlob where
  data : List Char
  mimeType : String
  deriving DecidableEq

/-- Encoder of a float sample chunk into a 16-bit PCM blob (types.ts
`createBlob`, lines 92-102). -/
def createBlob (data : List ℚ) : EncodedBlob :=
  let int16 := data.map (fun s => toInt16 (s * 32768))
  { data := encode (int16.map int16ToBytes).flatten,
    mimeType := "audio/pcm;rate=16000" }

/-- Encoder used by the React variant (liveService
`createAudioBlobForLive`, part_000 lines 66-76); its body is identical to
`createBlob`. -/
def createAudioBlobForLive (data : List ℚ) : EncodedBlob :=
  let int16 := data.map (fun s => toInt16 (s * 32768))
  { data := encode (int16.map int16ToBytes).flatten,
    mimeType := "audio/pcm;rate=16000" }

/-- Failure modes of `decodeAudioData`: the RangeError thrown by the
`Int16Array` constructor on an odd byte length, and the NotSupportedError
thrown by `ctx.createBuffer` on a zero frame count or channel count. -/
inductive DecodeError
  | rangeError
  | notSupported
  deriving DecidableEq

/-- PCM decoder (types.ts `decodeAudioData`, lines 72-89): reinterpret
the bytes as signed 16-bit little-endian samples, de-interleave into
`numChannels` planar channels of `frameCount` samples, each divided by
32768. -/
def decodeAudioData (data : List Nat) (numChannels : Nat) :
    Except DecodeError (List (List ℚ)) :=
  if data.length % 2 ≠ 0 then .error .rangeError
  else
    let dataInt16 := bytesToInt16 data
    let frameCount := dataInt16.length / numChannels
    if frameCount = 0 then .error .notSupported
    else .ok ((List.range numChannels).map (fun channel =>
      (List.range frameCount).map (fun i =>
        ((dataInt16.getD (i * numChannels + channel) 0 : Int) : ℚ) / 32768)))

/-! ## Playback scheduler

Source: the onMessage audio block of `startRecording` (part_002 lines
300-303): `nextStartTime = max(nextStartTime, currentTime);
sourceNode.start(nextStartTime); nextStartTime += audioBuffer.duration`.
`scheduleStarts` replays that loop over a whole arrival sequence: each
arrival is a pair of the buffer duration and the output-clock time at
which the message is handled, and the returned list collects the times
passed to `sourceNode.start`. -/

/-- Start times assigned by the playback scheduler to a sequence of
buffers, given the initial cursor; each arrival is (duration, clock time
at arrival). -/
def scheduleStarts (nextStartTime : ℚ) : List (ℚ × ℚ) → List ℚ
  | [] => []
  | (d, t) :: rest =>
      max nextStartTime t :: scheduleStarts (max nextStartTime t + d) rest

/-! ## Live-session message handling

Source: `handleServerMessage` in types.ts (lines 222-298).  The model
keeps the module-level mutable state touched by that function.  The
transcript strings `fullUserTranscript`/`fullModelTranscript` are stored
in the source as one string of lines joined by the literal separator
`<br>`; the model keeps the corresponding list of lines (transcription
fragments never contain the separator).  The `trim` test of the source's
line filter is modelled by `lineKeep`: a line survives `line.trim() !==
''` exactly when it holds a non-whitespace character.

The audio block runs `nextStartTime = max(nextStartTime, currentTime)`
first, then awaits `decodeAudioData`; when that call throws (see
`DecodeError`), the async handler rejects and the remaining statements of
`handleServerMessage` — including the interruption block — are skipped,
which the model reflects by returning early.  A scheduled source is
tracked in `outputSources` by a fresh identifier; its playback rate is
1.15, so the cursor advances by `duration / 1.15`.  The interruption
block stops every source in `outputSources`, empties the set, and resets
`nextStartTime` to 0. -/

/-- Inbound live-service message fields used by `handleServerMessage`:
transcription fragments, the turn-complete flag, the (already
transport-decoded) audio bytes of `modelTurn.parts[0].inlineData.data`,
and the interruption flag. -/
structure LiveMsg where
  inputTranscription : Option String
  outputTranscription : Option String
  turnComplete : Bool
  audioData : Option (List Nat)
  interrupted : Bool
  deriving DecidableEq

/-- Per-session mutable state of types.ts: the transcription
accumulators, the finalized transcript lines, the playback cursor, and
the set of scheduled-but-unfinished output sources (tracked by id,
together with the ids stopped so far and a fresh-id counter). -/
structure SessionState where
  currentInputTranscription : String
  currentOutputTranscription : String
  fullUserTranscript : List String
  fullModelTranscript : List String
  nextStartTime : ℚ
  outputSources : List Nat
  stoppedSources : List Nat
  nextSourceId : Nat
  deriving DecidableEq

/-- Maximum number of retained transcript lines (types.ts
`MAX_TRANSCRIPT_LINES`). -/
def MAX_TRANSCRIPT_LINES : Nat := 6

/-- Whether a line survives the source's `line.trim() !== ''` filter:
it holds some non-whitespace character. -/
def lineKeep (l : String) : Bool :=
  l.toList.any (fun c => !(c = ' ' || c = '\t' || c = '\n' || c = '\r'))

/-- Turn-complete branch of `handleServerMessage` (types.ts lines
236-256): append each accumulator to its history, trim each history to
the last `MAX_TRANSCRIPT_LINES` non-blank lines when it exceeds that
budget, and reset both accumulators. -/
def finalizeTurn (s : SessionState) : SessionState :=
  let userLines := s.fullUserTranscript ++ [s.currentInputTranscription]
  let userKept := userLines.filter lineKeep
  let userLines2 :=
    if userKept.length > MAX_TRANSCRIPT_LINES then
      userKept.drop (userKept.length - MAX_TRANSCRIPT_LINES)
    else userLines
  let modelLines := s.fullModelTranscript ++ [s.currentOutputTranscription]
  let modelKept := modelLines.filter lineKeep
  let modelLines2 :=
    if modelKept.length > MAX_TRANSCRIPT_LINES then
      modelKept.drop (modelKept.length - MAX_TRANSCRIPT_LINES)
    else modelLines
  { s with fullUserTranscript := userLines2,
           fullModelTranscript := modelLines2,
           currentInputTranscription := "",
           currentOutputTranscription := "" }

/-- Interruption branch of `handleServerMessage` (types.ts lines
291-297): stop every scheduled source, empty the pending set, reset the
cursor to 0. -/
def applyInterruption (msg : LiveMsg) (s : SessionState) : SessionState :=
  if msg.interrupted then
    { s with stoppedSources := s.stoppedSources ++ s.outputSources,
             outputSources := [],
             nextStartTime := 0 }
  else s

/-- Transcription section of `handleServerMessage` (types.ts lines
228-256): append each incoming fragment to its accumulator, then run the
turn-complete finalization when flagged. -/
def applyTranscripts (msg : LiveMsg) (s : SessionState) : SessionState :=
  let s1 :=
    match msg.inputTranscription with
    | some t => { s with currentInputTranscription := s.currentInputTranscription ++ t }
    | none => s
  let s2 :=
    match msg.outputTranscription with
    | some t => { s1 with currentOutputTranscription := s1.currentOutputTranscription ++ t }
    | none => s1
  if msg.turnComplete then finalizeTurn s2 else s2

/-- One step of `handleServerMessage` (types.ts lines 222-298) at output
clock time `currentTime`: transcription handling, then the audio block,
then the interruption block (skipped when `decodeAudioData` throws). -/
def handleServerMessage (msg : LiveMsg) (currentTime : ℚ) (s : SessionState) :
    SessionState :=
  let s3 := applyTranscripts msg s
  match msg.audioData with
  | none => applyInterruption msg s3
  | some bytes =>
      let s4 := { s3 with nextStartTime := max s3.nextStartTime currentTime }
      match decodeAudioData bytes 1 with
      | .error _ => s4
      | .ok chans =>
          let duration : ℚ := ((chans.headD []).length : ℚ) / 24000
          let s5 := { s4 with
            outputSources := s4.outputSources ++ [s4.nextSourceId],
            nextSourceId := s4.nextSourceId + 1,
            nextStartTime := s4.nextStartTime + duration / (115 / 100) }
          applyInterruption msg s5

/-- Session state at session start: empty accumulators and histories,
cursor at 0, no scheduled sources. -/
def initialSessionState : SessionState :=
  { currentInputTranscription := "",
    currentOutputTranscription := "",
    fullUserTranscript := [],
    fullModelTranscript := [],
    nextStartTime := 0,
    outputSources := [],
    stoppedSources := [],
    nextSourceId := 0 }

/-! ## Recording state machine (React app)

Source: `startRecording` (part_002 lines 244-327), `stopRecording`
(lines 232-242), `cleanupAudio` (lines 218-230) and `handleMicClick`
(lines 336-339) of the first App component in part_002.

The model keeps the component state and refs that these functions touch.
Audio nodes and contexts are booleans recording whether the ref currently
holds an object; `micTracksLive` records whether acquired microphone
tracks are still running (`cleanupAudio` stops them only through the
`mediaStreamSourceRef.current?.` optional chain).  Service connections
are tracked by id: `sessionPromise` is the ref's current value and
`openSessions` the history-tracking list of connections opened by
`connectToLiveService` and not yet closed; `closeThrows` says whether
`session.close()` throws when invoked (part_002 wraps that call in
try/catch/finally, so the throw never escapes `stopRecording`). -/

/-- Component state and refs of the part_002 App used by the recording
state machine. -/
structure RecState where
  isRecording : Bool
  selectedDeviceId : Option String
  errorMsg : Option String
  userInputHistory : String
  translationHistory : String
  nextStartTimeRef : ℚ
  sessionPromise : Option Nat
  openSessions : List Nat
  nextSessionId : Nat
  mediaStreamSource : Bool
  scriptProcessor : Bool
  analyserNode : Bool
  inputAudioContext : Bool
  outputAudioContext : Bool
  micTracksLive : Bool
  deriving DecidableEq

/-- Resource teardown (part_002 `cleanupAudio`, lines 218-230): stop the
microphone tracks reachable through the media-stream source, disconnect
the nodes, close both contexts, null every ref. -/
def cleanupAudio (s : RecState) : RecState :=
  { s with micTracksLive := if s.mediaStreamSource then false else s.micTracksLive,
           mediaStreamSource := false,
           scriptProcessor := false,
           inputAudioContext := false,
           outputAudioContext := false,
           analyserNode := false }

/-- Stop sequence (part_002 `stopRecording`, lines 232-242): clear the
recording flag, close the session inside try/catch (the ref is cleared in
`finally` even when `close()` throws, in which case the connection stays
open remotely), then always run `cleanupAudio`. -/
def stopRecording (closeThrows : Bool) (s : RecState) : RecState :=
  let s1 := { s with isRecording := false }
  let s2 :=
    match s1.sessionPromise with
    | none => s1
    | some sid =>
        { s1 with sessionPromise := none,
                  openSessions := if closeThrows then s1.openSessions
                                  else s1.openSessions.filter (fun x => x ≠ sid) }
  cleanupAudio s2

/-- Start sequence (part_002 `startRecording`, lines 244-327): reject
only when no device is selected; otherwise set the recording flag, clear
error and histories, reset the cursor, create fresh contexts and nodes,
acquire the microphone stream, and connect a new live-service session,
overwriting the session ref. -/
def startRecording (s : RecState) : RecState :=
  match s.selectedDeviceId with
  | none => { s with errorMsg := some "No microphone selected." }
  | some _ =>
      { s with isRecording := true,
               errorMsg := none,
               userInputHistory := "",
               translationHistory := "",
               nextStartTimeRef := 0,
               inputAudioContext := true,
               outputAudioContext := true,
               micTracksLive := true,
               mediaStreamSource := true,
               scriptProcessor := true,
               analyserNode := true,
               sessionPromise := some s.nextSessionId,
               openSessions := s.openSessions ++ [s.nextSessionId],
               nextSessionId := s.nextSessionId + 1 }

/-- Microphone button handler (part_002 `handleMicClick`, lines 336-339):
stop when recording, start otherwise. -/
def handleMicClick (closeThrows : Bool) (s : RecState) : RecState :=
  if s.isRecording then stopRecording closeThrows s else startRecording s

/-- Whether every capture and output audio resource is released: no node
or context ref is held and no acquired microphone track is running. -/
def audioReleased (s : RecState) : Prop :=
  s.mediaStreamSource = false ∧ s.scriptProcessor = false ∧
  s.analyserNode = false ∧ s.inputAudioContext = false ∧
  s.outputAudioContext = false

/-- Component state before any recording: a device is selected, nothing
is held. -/
def initialRecState : RecState :=
  { isRecording := false,
    selectedDeviceId := some "default-mic",
    errorMsg := none,
    userInputHistory := "",
    translationHistory := "",
    nextStartTimeRef := 0,
    sessionPromise := none,
    openSessions := [],
    nextSessionId := 0,
    mediaStreamSource := false,
    scriptProcessor := false,
    analyserNode := false,
    inputAudioContext := false,
    outputAudioContext := false,
    micTracksLive := false }

/-! ## Stop sequence of the vanilla app (types.ts `stopSession`)

Source: types.ts lines 302-342.  Unlike part_002's `stopRecording`, the
call `session.close()` there is not wrapped in try/catch: when it throws,
`stopSession` propagates the exception and none of the following resource
releases run.  The model returns `Except Unit` with `.error ()` for that
escaped exception. -/

/-- Module-level resource state of types.ts touched by `stopSession`. -/
structure MainAppState where
  session : Bool
  mediaStream : Bool
  scriptProcessor : Bool
  mediaStreamSource : Bool
  inputAudioContext : Bool
  outputAudioContext : Bool
  deriving DecidableEq

/-- Stop sequence of types.ts (`stopSession`, lines 302-342).
`closeThrows` says whether `session.close()` throws when invoked; the
source calls it unguarded, so a throw escapes before any resource is
released. -/
def stopSession (closeThrows : Bool) (sessionAlreadyClosed : Bool)
    (s : MainAppState) : Except Unit MainAppState :=
  if s.session ∧ ¬sessionAlreadyClosed ∧ closeThrows then .error ()
  else .ok
    { session := false,
      mediaStream := false,
      scriptProcessor := false,
      mediaStreamSource := false,
      inputAudioContext := false,
      outputAudioContext := false }

/-! ## Concrete fixtures and spec comparators -/

/-- Rounding to nearest as the spec words it (`round(s * 32768)`,
JavaScript `Math.round`: floor of the value plus one half).  This is the
spec's claimed quantizer, kept separate so it can be compared with the
code's `toInt16`. -/
def specRound (q : ℚ) : Int := ⌊q + 1 / 2⌋

/-- Message carrying the input-side transcription fragment "Hel". -/
def msgHel : LiveMsg :=
  { inputTranscription := some "Hel", outputTranscription := none,
    turnComplete := false, audioData := none, interrupted := false }

/-- Message carrying the input-side transcription fragment "lo". -/
def msgLo : LiveMsg :=
  { inputTranscription := some "lo", outputTranscription := none,
    turnComplete := false, audioData := none, interrupted := false }

/-- Message carrying only the turn-complete signal. -/
def msgTurnComplete : LiveMsg :=
  { inputTranscription := none, outputTranscription := none,
    turnComplete := true, audioData := none, interrupted := false }

/-- Message carrying only the interruption signal. -/
def msgInterrupted : LiveMsg :=
  { inputTranscription := none, outputTranscription := none,
    turnComplete := false, audioData := none, interrupted := true }

/-- Session state mid-playback: cursor at 1 second, one scheduled
source. -/
def busySessionState : SessionState :=
  { currentInputTranscription := "",
    currentOutputTranscription := "",
    fullUserTranscript := [],
    fullModelTranscript := [],
    nextStartTime := 1,
    outputSources := [3],
    stoppedSources := [],
    nextSourceId := 4 }

/-- Module state of types.ts with a session open and every audio
resource held. -/
def mainAppBusyState : MainAppState :=
  { session := true,
    mediaStream := true,
    scriptProcessor := true,
    mediaStreamSource := true,
    inputAudioContext := true,
    outputAudioContext := true }

/-! ## Transcript reconciler of the React variant (part_002 second App)

Source: the onMessage handler of `startRecording` in the second App
component of part_002 (lines 798-813).  Unlike types.ts, this variant
keeps no in-progress accumulator: the history is a list of
`TranscriptionEntry` records (types.ts lines 7-10), and each incoming
input-transcription fragment REPLACES the last entry when that entry's
speaker is user (`[...prev.slice(0, -1), { speaker: 'user', text }]`),
appending a fresh entry otherwise.  The source computes
`isFinal = turnComplete || false` but both the isFinal and the
non-isFinal branch return the same replacement, so the flag has no
observable effect; a message without an input-transcription fragment
leaves the list unchanged (the separate onTurnComplete callback appends
only a model-speaker entry). -/

/-- Speaker tag of a transcript entry (types.ts union user | model). -/
inductive Speaker
  | user
  | model
  deriving DecidableEq

/-- Transcript entry of the React variant (types.ts `TranscriptionEntry`,
lines 7-10). -/
structure TranscriptionEntry where
  speaker : Speaker
  text : String
  deriving DecidableEq

/-- History update performed by part_002's onMessage for one inbound
message (lines 800-812): replace the last user entry with the new
fragment, or append when the list is empty or ends with a model entry;
no update without an input-transcription fragment. -/
def updateTranscriptionHistory (msg : LiveMsg) (prev : List TranscriptionEntry) :
    List TranscriptionEntry :=
  match msg.inputTranscription with
  | none => prev
  | some text =>
      match prev.getLast? with
      | some last =>
          if last.speaker = Speaker.user then
            prev.dropLast ++ [{ speaker := Speaker.user, text := text }]
          else
            prev ++ [{ speaker := Speaker.user, text := text }]
      | none => prev ++ [{ speaker := Speaker.user, text := text }]

/-! ## Supporting lemmas -/

lemma isB64Char_sextetChar : ∀ n, n < 64 → isB64Char (sextetChar n) = true := by
  decide

lemma sextetChar_ne_pad : ∀ n, n < 64 → ¬ sextetChar n = '=' := by
  decide

lemma charSextet_sextetChar : ∀ n, n < 64 → charSextet (sextetChar n) = n := by
  decide

/-- Transport round-trip at byte level: decoding an encoded byte list
recovers the bytes, for genuine bytes (values below 256). -/
lemma decode_encode (bs : List Nat) (hb : ∀ b ∈ bs, b < 256) :
    decode (encode bs) = some bs := by
  induction bs using encode.induct with
  | case1 => rfl
  | case2 b0 =>
      have h0 : b0 < 256 := hb b0 (by simp)
      have s0 : b0 / 4 < 64 := by omega
      have s1 : b0 % 4 * 16 < 64 := by omega
      simp only [encode, decode, and_self, if_true,
        isB64Char_sextetChar _ s0, isB64Char_sextetChar _ s1, eq_self_iff_true,
        charSextet_sextetChar _ s0, charSextet_sextetChar _ s1,
        Option.some.injEq, List.cons.injEq, and_true]
      omega
  | case3 b0 b1 =>
      have h0 : b0 < 256 := hb b0 (by simp)
      have h1 : b1 < 256 := hb b1 (by simp)
      have s0 : b0 / 4 < 64 := by omega
      have s1 : b0 % 4 * 16 + b1 / 16 < 64 := by omega
      have s2 : b1 % 16 * 4 < 64 := by omega
      simp only [encode, decode, and_self, if_true,
        isB64Char_sextetChar _ s0, isB64Char_sextetChar _ s1,
        isB64Char_sextetChar _ s2, eq_self_iff_true,
        charSextet_sextetChar _ s0, charSextet_sextetChar _ s1,
        charSextet_sextetChar _ s2, Option.some.injEq, List.cons.injEq, and_true]
      rw [if_neg (sextetChar_ne_pad _ s2)]
      simp only [Option.some.injEq, List.cons.injEq, and_true]
      omega
  | case4 b0 b1 b2 rest ih =>
      have h0 : b0 < 256 := hb b0 (by simp)
      have h1 : b1 < 256 := hb b1 (by simp)
      have h2 : b2 < 256 := hb b2 (by simp)
      have hrest : ∀ b ∈ rest, b < 256 := fun b hm => hb b (by simp [hm])
      have s0 : b0 / 4 < 64 := by omega
      have s1 : b0 % 4 * 16 + b1 / 16 < 64 := by omega
      have s2 : b1 % 16 * 4 + b2 / 64 < 64 := by omega
      have s3 : b2 % 64 < 64 := by omega
      simp only [encode, decode]
      rw [if_pos ⟨isB64Char_sextetChar _ s0, isB64Char_sextetChar _ s1⟩,
        if_neg (sextetChar_ne_pad _ s2), if_pos (isB64Char_sextetChar _ s2),
        if_neg (sextetChar_ne_pad _ s3), if_pos (isB64Char_sextetChar _ s3),
        ih hrest]
      simp only [charSextet_sextetChar _ s0, charSextet_sextetChar _ s1,
        charSextet_sextetChar _ s2, charSextet_sextetChar _ s3,
        Option.map_some, Option.map_some', Option.some.injEq, List.cons.injEq, and_true,
        eq_self_iff_true, true_and]
      omega

lemma int16ToBytes_lt (n : Int) : ∀ b ∈ int16ToBytes n, b < 256 := by
  intro b hb
  have h0 : 0 ≤ n % 65536 := Int.emod_nonneg n (by norm_num)
  have h1 : n % 65536 < 65536 := Int.emod_lt_of_pos n (by norm_num)
  simp only [int16ToBytes, List.mem_cons, List.mem_singleton, List.not_mem_nil,
    or_false] at hb
  rcases hb with h | h <;> omega

lemma int16OfBytes_int16ToBytes (n : Int) (h0 : -32768 ≤ n) (h1 : n ≤ 32767) :
    bytesToInt16 (int16ToBytes n) = [n] := by
  have e0 : 0 ≤ n % 65536 := Int.emod_nonneg n (by norm_num)
  have e1 : n % 65536 < 65536 := Int.emod_lt_of_pos n (by norm_num)
  simp only [int16ToBytes, bytesToInt16, int16OfBytes]
  congr 1
  split <;> omega

lemma bytesToInt16_join (l : List Int)
    (hl : ∀ n ∈ l, -32768 ≤ n ∧ n ≤ 32767) :
    bytesToInt16 (l.map int16ToBytes).flatten = l := by
  induction l with
  | nil => rfl
  | cons n rest ih =>
      have hn := hl n (by simp)
      have hcons : ((n :: rest).map int16ToBytes).flatten
          = (n % 65536).toNat % 256 :: (n % 65536).toNat / 256
            :: (rest.map int16ToBytes).flatten := by
        simp [int16ToBytes]
      rw [hcons]
      simp only [bytesToInt16]
      rw [ih (fun m hm => hl m (by simp [hm]))]
      have hsingle := int16OfBytes_int16ToBytes n hn.1 hn.2
      simp only [int16ToBytes, bytesToInt16, List.cons.injEq, and_true] at hsingle
      rw [hsingle]

lemma bytesToInt16_length (bs : List Nat) :
    (bytesToInt16 bs).length = bs.length / 2 := by
  induction bs using bytesToInt16.induct with
  | case1 => rfl
  | case2 a => simp [bytesToInt16]
  | case3 lo hi rest ih =>
      simp only [bytesToInt16, List.length_cons, ih]
      omega

lemma toInt16_bounds (q : ℚ) : -32768 ≤ toInt16 q ∧ toInt16 q ≤ 32767 := by
  have h0 : 0 ≤ truncQ q % 65536 := Int.emod_nonneg _ (by norm_num)
  have h1 : truncQ q % 65536 < 65536 := Int.emod_lt_of_pos _ (by norm_num)
  unfold toInt16 wrap16
  constructor <;> split <;> omega

lemma wrap16_eq_self (m : Int) (h0 : -32768 ≤ m) (h1 : m ≤ 32767) :
    wrap16 m = m := by
  unfold wrap16
  split <;> omega

lemma truncQ_le (q : ℚ) : (truncQ q : ℚ) ≤ q + 1 ∧ q - 1 ≤ (truncQ q : ℚ) := by
  unfold truncQ
  split
  · constructor
    · have := Int.floor_le q
      linarith
    · have := Int.lt_floor_add_one q
      linarith
  · constructor
    · have := Int.ceil_lt_add_one q
      linarith
    · have := Int.le_ceil q
      linarith

lemma truncQ_bounds_of_lt (q : ℚ) (h0 : -32768 < q) (h1 : q < 32768) :
    -32768 ≤ truncQ q ∧ truncQ q ≤ 32767 := by
  rcases le_or_lt 0 q with hq | hq
  · unfold truncQ
    rw [if_pos hq]
    have hl : (0 : Int) ≤ ⌊q⌋ := Int.le_floor.2 (by exact_mod_cast hq)
    have hu : (⌊q⌋ : ℚ) ≤ q := Int.floor_le q
    have hc : (⌊q⌋ : ℚ) < 32768 := lt_of_le_of_lt hu h1
    have hi : ⌊q⌋ < 32768 := by exact_mod_cast hc
    omega
  · unfold truncQ
    rw [if_neg (not_le.2 hq)]
    have hl : q ≤ (⌈q⌉ : ℚ) := Int.le_ceil q
    have hu : ⌈q⌉ ≤ 0 := Int.ceil_le.2 (by exact_mod_cast le_of_lt hq)
    have hc : (-32768 : ℚ) < (⌈q⌉ : ℚ) := lt_of_lt_of_le h0 hl
    have hi : (-32768 : Int) < ⌈q⌉ := by exact_mod_cast hc
    omega

/-- Per-sample quantization bound: for samples within ±0.999 the
truncate-and-wrap encoder followed by division by 32768 lands within
1/32768 of the original sample. -/
lemma quant_error (x : ℚ) (h1 : -(999/1000) ≤ x) (h2 : x ≤ 999/1000) :
    |((toInt16 (x * 32768) : Int) : ℚ) / 32768 - x| ≤ 1 / 32768 := by
  set q : ℚ := x * 32768 with hq
  have hql : -32768 < q := by rw [hq]; nlinarith
  have hqu : q < 32768 := by rw [hq]; nlinarith
  obtain ⟨hm0, hm1⟩ := truncQ_bounds_of_lt q hql hqu
  have hwrap : toInt16 q = truncQ q := by
    unfold toInt16
    exact wrap16_eq_self _ hm0 hm1
  obtain ⟨ht0, ht1⟩ := truncQ_le q
  rw [hwrap]
  have hx : x = q / 32768 := by rw [hq]; ring
  rw [hx, abs_le]
  constructor <;> [linarith; linarith]

lemma map_range_getD (l : List Int) (f : Int → ℚ) :
    (List.range l.length).map (fun i => f (l.getD i 0)) = l.map f := by
  induction l with
  | nil => rfl
  | cons a tl ih =>
      have : List.range (tl.length + 1) = 0 :: (List.range tl.length).map (· + 1) :=
        List.range_succ_eq_map tl.length
      simp only [List.length_cons, this, List.map_cons, List.map_map, List.getD_cons_zero]
      refine congrArg (f a :: ·) ?_
      calc ((List.range tl.length).map fun i => f ((a :: tl).getD (i + 1) 0))
          = (List.range tl.length).map fun i => f (tl.getD i 0) := by
            refine List.map_congr_left ?_
            intro i _
            simp
        _ = tl.map f := ih

/-- Successful evaluation of `decodeAudioData` in the one-channel case on
the bytes of a nonempty int16 list. -/
lemma decodeAudioData_mono (l : List Int) (hne : l ≠ [])
    (hl : ∀ n ∈ l, -32768 ≤ n ∧ n ≤ 32767) :
    decodeAudioData (l.map int16ToBytes).flatten 1
      = .ok [l.map (fun n => ((n : Int) : ℚ) / 32768)] := by
  have hlen : ((l.map int16ToBytes).flatten).length = 2 * l.length := by
    clear hne hl
    induction l with
    | nil => rfl
    | cons a tl ih =>
        have hc : ((a :: tl).map int16ToBytes).flatten
            = int16ToBytes a ++ (tl.map int16ToBytes).flatten := by simp
        rw [hc, List.length_append, ih]
        simp only [int16ToBytes, List.length_cons, List.length_nil, List.length_cons]
        omega
  have hints : bytesToInt16 (l.map int16ToBytes).flatten = l := bytesToInt16_join l hl
  have hfc : (bytesToInt16 (l.map int16ToBytes).flatten).length / 1 = l.length := by
    rw [hints]; simp
  unfold decodeAudioData
  rw [if_neg (by omega)]
  have hpos : l.length ≠ 0 := fun h => hne (List.eq_nil_of_length_eq_zero h)
  rw [if_neg (by rw [hfc]; exact hpos)]
  rw [hfc, hints]
  refine congrArg Except.ok ?_
  have hr1 : List.range 1 = [0] := rfl
  rw [hr1]
  simp only [List.map_cons, List.map_nil]
  refine congrArg (fun x => [x]) ?_
  rw [← map_range_getD l (fun n => ((n : Int) : ℚ) / 32768)]
  refine List.map_congr_left ?_
  intro i _
  simp

lemma scheduleStarts_length (next : ℚ) (arr : List (ℚ × ℚ)) :
    (scheduleStarts next arr).length = arr.length := by
  induction arr generalizing next with
  | nil => rfl
  | cons p rest ih =>
      obtain ⟨d, t⟩ := p
      simp [scheduleStarts, ih]

lemma scheduleStarts_head_ge (next : ℚ) (p : ℚ × ℚ) (rest : List (ℚ × ℚ)) :
    next ≤ (scheduleStarts next (p :: rest)).getD 0 0 := by
  obtain ⟨d, t⟩ := p
  simp [scheduleStarts]

lemma scheduleStarts_gap (next : ℚ) (arr : List (ℚ × ℚ)) :
    ∀ i, i + 1 < (scheduleStarts next arr).length →
      (scheduleStarts next arr).getD i 0 + (arr.getD i (0, 0)).1
        ≤ (scheduleStarts next arr).getD (i + 1) 0 := by
  induction arr generalizing next with
  | nil => intro i hi; simp [scheduleStarts] at hi
  | cons p rest ih =>
      obtain ⟨d, t⟩ := p
      intro i hi
      match i with
      | 0 =>
          simp only [scheduleStarts, List.getD_cons_zero, List.getD_cons_succ]
          cases rest with
          | nil =>
              simp [scheduleStarts, scheduleStarts_length] at hi
          | cons q rest2 =>
              exact scheduleStarts_head_ge (max next t + d) q rest2
      | i + 1 =>
          simp only [scheduleStarts, List.getD_cons_succ]
          refine ih (max next t + d) i ?_
          simp only [scheduleStarts, List.length_cons] at hi
          omega

lemma applyTranscripts_audio_fields (msg : LiveMsg) (s : SessionState) :
    (applyTranscripts msg s).outputSources = s.outputSources
    ∧ (applyTranscripts msg s).stoppedSources = s.stoppedSources
    ∧ (applyTranscripts msg s).nextStartTime = s.nextStartTime
    ∧ (applyTranscripts msg s).nextSourceId = s.nextSourceId := by
  unfold applyTranscripts finalizeTurn
  cases msg.inputTranscription <;> cases msg.outputTranscription <;>
    cases msg.turnComplete <;> simp

lemma decodeAudioData_ok_shape (bytes : List Nat) (h2 : bytes.length % 2 = 0)
    (hpos : 0 < bytes.length) :
    ∃ chans, decodeAudioData bytes 1 = .ok chans := by
  unfold decodeAudioData
  rw [if_neg (by omega)]
  rw [if_neg (by rw [bytesToInt16_length]; omega)]
  exact ⟨_, rfl⟩

lemma getD_map_eq (s : List ℚ) (F : ℚ → ℚ) (i : Nat) (hi : i < s.length) :
    (s.map F).getD i 0 = F (s.getD i 0) := by
  rw [List.getD_eq_getElem _ _ (by simpa using hi), List.getD_eq_getElem _ _ hi,
    List.getElem_map]

/-! ## Claims -/

/-- C10: transport-encoding round-trip — for every byte array b,
decode (encode b) = b; the base64 transport encoding followed by
transport decoding is the identity on byte sequences of any length,
including the empty sequence. -/
theorem c10_transport_roundtrip (bs : List Nat) (hb : ∀ b ∈ bs, b < 256) :
    decode (encode bs) = some bs :=
  decode_encode bs hb

/-- Witness for C10 at the concrete byte list [0, 255, 77, 1]. -/
theorem c10_transport_roundtrip_witness :
    (∀ b ∈ [0, 255, 77, 1], b < 256)
    ∧ decode (encode [0, 255, 77, 1]) = some [0, 255, 77, 1] :=
  ⟨by decide, c10_transport_roundtrip [0, 255, 77, 1] (by decide)⟩

/-- Counterexample to C8 as stated: 6 bytes with 2 channels is not a
multiple of 2 * channels = 4 (the remainder is 2), yet `decodeAudioData`
succeeds — the trailing sample is silently dropped instead of raising a
truncation error. -/
theorem c8_truncated_length_cex :
    (6 : Nat) % (2 * 2) = 2
    ∧ decodeAudioData [0, 0, 0, 0, 0, 0] 2 = .ok [[0], [0]] := by
  refine ⟨rfl, ?_⟩
  simp [decodeAudioData, bytesToInt16, int16OfBytes, List.range_succ]

/-- C8 (amended): `decodeAudioData` has no truncation error for byte
lengths that are not multiples of 2 * channels.  It fails with the
RangeError of the `Int16Array` constructor exactly when the byte length
is odd; for even lengths it fails with `createBuffer`'s
NotSupportedError exactly when the truncated frame count
samples / channels is zero, and otherwise succeeds, silently dropping
trailing samples and returning `channels` planar arrays of length
samples / channels. -/
theorem c8_decode_errors_amended (bytes : List Nat) (ch : Nat) (hch : 1 ≤ ch) :
    (bytes.length % 2 = 1 → decodeAudioData bytes ch = .error .rangeError)
    ∧ (bytes.length % 2 = 0 → bytes.length / 2 / ch = 0 →
        decodeAudioData bytes ch = .error .notSupported)
    ∧ (bytes.length % 2 = 0 → 0 < bytes.length / 2 / ch →
        ∃ chans, decodeAudioData bytes ch = .ok chans ∧ chans.length = ch ∧
          ∀ c ∈ chans, c.length = bytes.length / 2 / ch) := by
  refine ⟨?_, ?_, ?_⟩
  · intro h
    unfold decodeAudioData
    rw [if_pos (by omega)]
  · intro h hz
    unfold decodeAudioData
    rw [if_neg (by omega), if_pos (by rw [bytesToInt16_length]; exact hz)]
  · intro h hp
    unfold decodeAudioData
    rw [if_neg (by omega), if_neg (by rw [bytesToInt16_length]; omega)]
    refine ⟨_, rfl, by simp, ?_⟩
    intro c hc
    rw [List.mem_map] at hc
    obtain ⟨k, _, rfl⟩ := hc
    simp [bytesToInt16_length]

/-- Witness for the amended C8 at 6 zero bytes with 2 channels. -/
theorem c8_decode_errors_witness :
    1 ≤ 2
    ∧ (([0, 0, 0, 0, 0, 0] : List Nat).length % 2 = 1 →
        decodeAudioData [0, 0, 0, 0, 0, 0] 2 = .error .rangeError)
    ∧ (([0, 0, 0, 0, 0, 0] : List Nat).length % 2 = 0 →
        ([0, 0, 0, 0, 0, 0] : List Nat).length / 2 / 2 = 0 →
        decodeAudioData [0, 0, 0, 0, 0, 0] 2 = .error .notSupported)
    ∧ (([0, 0, 0, 0, 0, 0] : List Nat).length % 2 = 0 →
        0 < ([0, 0, 0, 0, 0, 0] : List Nat).length / 2 / 2 →
        ∃ chans, decodeAudioData [0, 0, 0, 0, 0, 0] 2 = .ok chans ∧ chans.length = 2 ∧
          ∀ c ∈ chans, c.length = ([0, 0, 0, 0, 0, 0] : List Nat).length / 2 / 2) :=
  ⟨by decide, c8_decode_errors_amended [0, 0, 0, 0, 0, 0] 2 (by decide)⟩

/-- Counterexample to C7 as stated: in the part_002 reconciler (lines
800-812) each fragment replaces the last user entry, so the fragments
"Hel" then "lo" followed by a standalone turn-complete message leave
exactly one user entry whose text is "lo" — not "Hello" — and no input
accumulator exists to reset. -/
theorem c7_replace_last_cex :
    updateTranscriptionHistory msgTurnComplete
        (updateTranscriptionHistory msgLo
          (updateTranscriptionHistory msgHel []))
      = [{ speaker := Speaker.user, text := "lo" }] := rfl

/-- C7 (amended): transcript finalization holds for the types.ts
reconciler — after the input-side fragments "Hel" then "lo" followed by
a turn-complete signal, `handleServerMessage` holds exactly one user
transcript line "Hello" (appended to the history, most-recent-last) and
the in-progress input accumulator is reset to the empty string; the
part_002 variant replaces the last user entry per fragment instead (see
the counterexample). -/
theorem c7_transcript_finalization :
    (handleServerMessage msgTurnComplete 0
        (handleServerMessage msgLo 0
          (handleServerMessage msgHel 0 initialSessionState))).fullUserTranscript
      = ["Hello"]
    ∧ (handleServerMessage msgTurnComplete 0
        (handleServerMessage msgLo 0
          (handleServerMessage msgHel 0 initialSessionState))).currentInputTranscription
      = "" := by
  constructor <;>
    simp [handleServerMessage, applyTranscripts, initialSessionState, applyInterruption,
      finalizeTurn, lineKeep, MAX_TRANSCRIPT_LINES, msgHel, msgLo, msgTurnComplete]

/-- Counterexample to C6 as stated: an interruption message handled while
the session is open resets the cursor from 1 to 0, so a message-handling
step does decrease `nextStartTime`. -/
theorem c6_cursor_reset_cex :
    (handleServerMessage msgInterrupted 0 busySessionState).nextStartTime
      < busySessionState.nextStartTime := by
  simp [handleServerMessage, applyTranscripts, busySessionState, applyInterruption,
    msgInterrupted]

/-- C6 (amended): the cursor `nextStartTime` is non-decreasing under
every message-handling step that does not carry the interruption signal;
only the interruption branch (which resets it to 0) can decrease it. -/
theorem c6_cursor_monotone_amended (msg : LiveMsg) (t : ℚ) (s : SessionState)
    (h : msg.interrupted = false) :
    s.nextStartTime ≤ (handleServerMessage msg t s).nextStartTime := by
  obtain ⟨-, -, hnext, -⟩ := applyTranscripts_audio_fields msg s
  unfold handleServerMessage
  cases haud : msg.audioData with
  | none =>
      simp only [applyInterruption, h, Bool.false_eq_true, if_false]
      rw [hnext]
  | some bytes =>
      cases hdec : decodeAudioData bytes 1 with
      | error e =>
          simp only [hdec]
          rw [← hnext]
          exact le_max_left _ _
      | ok chans =>
          simp only [hdec, applyInterruption, h, Bool.false_eq_true, if_false]
          have hd : (0 : ℚ) ≤ ((chans.headD []).length : ℚ) / 24000 / (115 / 100) := by
            positivity
          have hm : s.nextStartTime ≤ max (applyTranscripts msg s).nextStartTime t := by
            rw [hnext]
            exact le_max_left _ _
          calc s.nextStartTime ≤ max (applyTranscripts msg s).nextStartTime t := hm
            _ ≤ max (applyTranscripts msg s).nextStartTime t
                + ((chans.headD []).length : ℚ) / 24000 / (115 / 100) := by linarith

/-- Witness for the amended C6: a transcription-only message at clock
time 2 does not decrease the cursor of a mid-playback state. -/
theorem c6_cursor_monotone_witness :
    msgHel.interrupted = false
    ∧ busySessionState.nextStartTime
        ≤ (handleServerMessage msgHel 2 busySessionState).nextStartTime :=
  ⟨rfl, c6_cursor_monotone_amended msgHel 2 busySessionState rfl⟩

/-- C5: interruption handling — a message carrying the interruption
signal (and no malformed audio payload, which would make the handler
throw before reaching the interruption block) leaves the pending output
set empty, resets the cursor to 0, and every source that was scheduled
beforehand has been stopped. -/
theorem c5_interruption (msg : LiveMsg) (t : ℚ) (s : SessionState)
    (hint : msg.interrupted = true)
    (hok : ∀ bytes, msg.audioData = some bytes →
      bytes.length % 2 = 0 ∧ 0 < bytes.length) :
    (handleServerMessage msg t s).outputSources = []
    ∧ (handleServerMessage msg t s).nextStartTime = 0
    ∧ ∀ sid ∈ s.outputSources, sid ∈ (handleServerMessage msg t s).stoppedSources := by
  obtain ⟨hout, hstop, -, -⟩ := applyTranscripts_audio_fields msg s
  unfold handleServerMessage
  cases haud : msg.audioData with
  | none =>
      simp only [applyInterruption, hint, eq_self_iff_true, if_true]
      refine ⟨by simp, by simp, ?_⟩
      intro sid hsid
      rw [hstop, hout]
      exact List.mem_append_right _ hsid
  | some bytes =>
      obtain ⟨h2, hp⟩ := hok bytes haud
      obtain ⟨chans, hch⟩ := decodeAudioData_ok_shape bytes h2 hp
      simp only [hch, applyInterruption, hint, eq_self_iff_true, if_true]
      refine ⟨by simp, by simp, ?_⟩
      intro sid hsid
      have hmem : sid ∈ (applyTranscripts msg s).outputSources := by
        rw [hout]; exact hsid
      simp [List.mem_append, hstop, hmem]

/-- Witness for C5: an interruption-only message on a state with one
scheduled source and cursor 1. -/
theorem c5_interruption_witness :
    msgInterrupted.interrupted = true
    ∧ (∀ bytes, msgInterrupted.audioData = some bytes →
        bytes.length % 2 = 0 ∧ 0 < bytes.length)
    ∧ ((handleServerMessage msgInterrupted 0 busySessionState).outputSources = []
      ∧ (handleServerMessage msgInterrupted 0 busySessionState).nextStartTime = 0
      ∧ ∀ sid ∈ busySessionState.outputSources,
          sid ∈ (handleServerMessage msgInterrupted 0 busySessionState).stoppedSources) :=
  ⟨rfl, by intro bytes h; simp [msgInterrupted] at h,
   c5_interruption msgInterrupted 0 busySessionState rfl
     (by intro bytes h; simp [msgInterrupted] at h)⟩

/-- Counterexample to C2 as stated: from a recording state,
`startRecording` is neither rejected nor a no-op — it opens a second
live-service connection while the first is still open (the open-session
count goes from 1 to 2). -/
theorem c2_double_start_cex :
    (startRecording initialRecState).isRecording = true
    ∧ (startRecording initialRecState).openSessions.length = 1
    ∧ (startRecording (startRecording initialRecState)).openSessions.length = 2 :=
  ⟨rfl, rfl, rfl⟩

/-- C2 (amended): the UI entry point `handleMicClick` never opens a
second session — invoked while recording it runs the stop sequence, and
the number of open sessions does not grow; rejection of a bare
`startRecording` call happens only when no device is selected. -/
theorem c2_single_session_amended (closeThrows : Bool) (s : RecState)
    (h : s.isRecording = true) :
    handleMicClick closeThrows s = stopRecording closeThrows s
    ∧ (handleMicClick closeThrows s).openSessions.length ≤ s.openSessions.length := by
  have he : handleMicClick closeThrows s = stopRecording closeThrows s := by
    unfold handleMicClick
    rw [if_pos h]
  refine ⟨he, ?_⟩
  rw [he]
  unfold stopRecording cleanupAudio
  cases hsp : s.sessionPromise with
  | none => simp [hsp]
  | some sid =>
      simp only [hsp]
      by_cases hct : closeThrows
      · simp [hct]
      · simp only [hct, if_false]
        exact List.length_filter_le _ _

/-- Witness for the amended C2 at a freshly started recording state. -/
theorem c2_single_session_witness :
    (startRecording initialRecState).isRecording = true
    ∧ (handleMicClick false (startRecording initialRecState)
        = stopRecording false (startRecording initialRecState)
      ∧ (handleMicClick false (startRecording initialRecState)).openSessions.length
          ≤ (startRecording initialRecState).openSessions.length) :=
  ⟨rfl, c2_single_session_amended false (startRecording initialRecState) rfl⟩

/-- Counterexample to C9 as stated: in the types.ts variant, when
`session.close()` throws inside `stopSession`, the exception escapes
before any resource release runs — no track is stopped, no node
disconnected, no context closed. -/
theorem c9_close_throw_cex :
    stopSession true false mainAppBusyState = .error () := rfl

/-- C9 (amended): the part_002 stop sequence releases all capture and
output audio resources unconditionally — `stopRecording` wraps the
session close in try/catch/finally and always runs `cleanupAudio`, even
when the close throws; in types.ts `stopSession` the release runs only
when `session.close()` does not throw (see the counterexample). -/
theorem c9_teardown_amended (closeThrows : Bool) (s : RecState) :
    audioReleased (stopRecording closeThrows s)
    ∧ (s.mediaStreamSource = true →
        (stopRecording closeThrows s).micTracksLive = false) := by
  unfold stopRecording cleanupAudio audioReleased
  cases hsp : s.sessionPromise <;> simp [hsp] <;>
    (intro h1 h2; simp [h1] at h2)

/-- Witness for the amended C9: stopping a freshly started recording
with a throwing close still releases everything. -/
theorem c9_teardown_witness :
    audioReleased (stopRecording true (startRecording initialRecState))
    ∧ ((startRecording initialRecState).mediaStreamSource = true →
        (stopRecording true (startRecording initialRecState)).micTracksLive = false) :=
  c9_teardown_amended true (startRecording initialRecState)

/-- C3: playback scheduler monotonicity — for any arrival sequence of
buffers with nonnegative durations at arbitrary output-clock times, the
computed start times satisfy start(i) + d(i) ≤ start(i+1) for every i,
and are therefore non-decreasing. -/
theorem c3_scheduler_monotone (next : ℚ) (arrivals : List (ℚ × ℚ))
    (hd : ∀ p ∈ arrivals, 0 ≤ p.1) :
    (∀ i, i + 1 < (scheduleStarts next arrivals).length →
        (scheduleStarts next arrivals).getD i 0 + (arrivals.getD i (0, 0)).1
          ≤ (scheduleStarts next arrivals).getD (i + 1) 0)
    ∧ (∀ i, i + 1 < (scheduleStarts next arrivals).length →
        (scheduleStarts next arrivals).getD i 0
          ≤ (scheduleStarts next arrivals).getD (i + 1) 0) := by
  refine ⟨scheduleStarts_gap next arrivals, ?_⟩
  intro i hi
  have h1 := scheduleStarts_gap next arrivals i hi
  have hlen : i < arrivals.length := by
    have := scheduleStarts_length next arrivals
    omega
  have hmem : arrivals.getD i (0, 0) ∈ arrivals := by
    rw [List.getD_eq_getElem _ _ hlen]
    exact List.getElem_mem _
  have h2 := hd _ hmem
  linarith

/-- Witness for C3 on a three-buffer arrival sequence with a late and an
early arrival. -/
theorem c3_scheduler_monotone_witness :
    (∀ p ∈ [((1 : ℚ), (0 : ℚ)), (2, 5), (1, 3)], 0 ≤ p.1)
    ∧ ((∀ i, i + 1 < (scheduleStarts 0 [((1 : ℚ), (0 : ℚ)), (2, 5), (1, 3)]).length →
          (scheduleStarts 0 [((1 : ℚ), (0 : ℚ)), (2, 5), (1, 3)]).getD i 0
            + ([((1 : ℚ), (0 : ℚ)), (2, 5), (1, 3)].getD i (0, 0)).1
            ≤ (scheduleStarts 0 [((1 : ℚ), (0 : ℚ)), (2, 5), (1, 3)]).getD (i + 1) 0)
      ∧ (∀ i, i + 1 < (scheduleStarts 0 [((1 : ℚ), (0 : ℚ)), (2, 5), (1, 3)]).length →
          (scheduleStarts 0 [((1 : ℚ), (0 : ℚ)), (2, 5), (1, 3)]).getD i 0
            ≤ (scheduleStarts 0 [((1 : ℚ), (0 : ℚ)), (2, 5), (1, 3)]).getD (i + 1) 0)) :=
  ⟨by norm_num, c3_scheduler_monotone 0 [((1 : ℚ), (0 : ℚ)), (2, 5), (1, 3)] (by norm_num)⟩

/-- Counterexample to C4 as stated: the encoder truncates toward zero
rather than rounding — at the sample 7/131072 (whose scaled value is
1.75) the code stores 1 while round(s * 32768) is 2. -/
theorem c4_round_vs_trunc_cex :
    toInt16 ((7 / 131072 : ℚ) * 32768) = 1
    ∧ specRound ((7 / 131072 : ℚ) * 32768) = 2 := by
  constructor
  · have hq : (7 / 131072 : ℚ) * 32768 = 7 / 4 := by norm_num
    have hf : ⌊(7 / 4 : ℚ)⌋ = 1 := by
      rw [show (1 : Int) = ((1 : Nat) : Int) from rfl]
      norm_num [Int.floor_eq_iff]
    rw [toInt16, truncQ, hq, if_pos (by norm_num), hf, wrap16]
    norm_num
  · have hq : (7 / 131072 : ℚ) * 32768 + 1 / 2 = 9 / 4 := by norm_num
    have hf : ⌊(9 / 4 : ℚ)⌋ = 2 := by
      rw [show (2 : Int) = ((2 : Nat) : Int) from rfl]
      norm_num [Int.floor_eq_iff]
    rw [specRound, hq, hf]

/-- C4 (amended): the encoder quantizes by the JavaScript ToInt16
conversion — truncation toward zero then wrap modulo 2^16, not rounding.
Full-scale negative input -1.0 maps to -32768 and round-trips exactly
through the whole blob-encode/transport/decode pipeline; full-scale
positive input 1.0 silently wraps to -32768 on encode; every produced
blob carries the fixed MIME string audio/pcm;rate=16000, and the React
variant createAudioBlobForLive agrees with createBlob. -/
theorem c4_encode_quantization_amended :
    toInt16 ((-1 : ℚ) * 32768) = -32768
    ∧ (decode (createBlob [(-1 : ℚ)]).data).map (fun bytes => decodeAudioData bytes 1)
        = some (.ok [[-1]])
    ∧ toInt16 ((1 : ℚ) * 32768) = -32768
    ∧ (∀ s : List ℚ, (createBlob s).mimeType = "audio/pcm;rate=16000")
    ∧ (∀ s : List ℚ, createAudioBlobForLive s = createBlob s) := by
  have hneg : toInt16 ((-1 : ℚ) * 32768) = -32768 := by
    have hq : (-1 : ℚ) * 32768 = ((-32768 : Int) : ℚ) := by norm_num
    rw [toInt16, truncQ, hq, if_neg (by norm_num), Int.ceil_intCast, wrap16]
    norm_num
  have hpos : toInt16 ((1 : ℚ) * 32768) = -32768 := by
    have hq : (1 : ℚ) * 32768 = ((32768 : Int) : ℚ) := by norm_num
    rw [toInt16, truncQ, hq, if_pos (by norm_num), Int.floor_intCast, wrap16]
    norm_num
  refine ⟨hneg, ?_, hpos, fun s => rfl, fun s => rfl⟩
  have hneg32 : toInt16 (-32768 : ℚ) = -32768 := by
    have hq : (-32768 : ℚ) = ((-32768 : Int) : ℚ) := by norm_num
    rw [toInt16, truncQ, hq, if_neg (by norm_num), Int.ceil_intCast, wrap16]
    norm_num
  have hbytes : int16ToBytes (-32768) = [0, 128] := by decide
  have hdata : (createBlob [(-1 : ℚ)]).data = encode [0, 128] := by
    simp [createBlob, hneg32, hbytes]
  rw [hdata, decode_encode [0, 128] (by decide), Option.map_some']
  refine congrArg some ?_
  have hioB : int16OfBytes 0 128 = -32768 := by decide
  simp [decodeAudioData, bytesToInt16, hioB, List.range_succ]

/-- Counterexample to C1 as stated: for the empty sample array (all of
whose samples are vacuously within bounds), the decode side fails with
createBuffer's NotSupportedError (zero frame count) instead of yielding
an array of the same length. -/
theorem c1_codec_roundtrip_empty_cex :
    (decode (createBlob ([] : List ℚ)).data).map (fun bytes => decodeAudioData bytes 1)
      = some (.error DecodeError.notSupported) := rfl

/-- C1 (amended): for every nonempty sample array with values in
[-0.999, 0.999], encoding with createBlob, transport-decoding the blob
and PCM-decoding with one channel succeeds and yields an array of the
same length whose entries differ from the originals by at most
1/32768. -/
theorem c1_codec_roundtrip_amended (s : List ℚ) (hne : s ≠ [])
    (hb : ∀ x ∈ s, -(999 / 1000 : ℚ) ≤ x ∧ x ≤ 999 / 1000) :
    ∃ out : List ℚ,
      (decode (createBlob s).data).map (fun bytes => decodeAudioData bytes 1)
        = some (.ok [out])
      ∧ out.length = s.length
      ∧ ∀ i, i < s.length → |out.getD i 0 - s.getD i 0| ≤ 1 / 32768 := by
  have hbytes : ∀ b ∈ ((s.map (fun x => toInt16 (x * 32768))).map int16ToBytes).flatten,
      b < 256 := by
    intro b hmem
    rw [List.mem_flatten] at hmem
    obtain ⟨l, hl, hbl⟩ := hmem
    rw [List.mem_map] at hl
    obtain ⟨n, -, rfl⟩ := hl
    exact int16ToBytes_lt n b hbl
  have hdec : decode (createBlob s).data
      = some ((s.map (fun x => toInt16 (x * 32768))).map int16ToBytes).flatten :=
    decode_encode _ hbytes
  have hne2 : s.map (fun x => toInt16 (x * 32768)) ≠ [] := by
    cases s with
    | nil => exact absurd rfl hne
    | cons a tl => simp
  have hrange : ∀ n ∈ s.map (fun x => toInt16 (x * 32768)), -32768 ≤ n ∧ n ≤ 32767 := by
    intro n hn
    rw [List.mem_map] at hn
    obtain ⟨x, -, rfl⟩ := hn
    exact toInt16_bounds _
  have hmono := decodeAudioData_mono (s.map (fun x => toInt16 (x * 32768))) hne2 hrange
  refine ⟨s.map (fun x => ((toInt16 (x * 32768) : Int) : ℚ) / 32768), ?_, by simp, ?_⟩
  · rw [hdec, Option.map_some', hmono]
    refine congrArg (fun l => some (Except.ok [l])) ?_
    rw [List.map_map]
    rfl
  · intro i hi
    rw [getD_map_eq s _ i hi]
    have hmem : s.getD i 0 ∈ s := by
      rw [List.getD_eq_getElem _ _ hi]
      exact List.getElem_mem _
    obtain ⟨h1, h2⟩ := hb _ hmem
    exact quant_error _ h1 h2

/-- Witness for the amended C1 at the one-sample array [1/2]. -/
theorem c1_codec_roundtrip_witness :
    ([(1 / 2 : ℚ)] ≠ [])
    ∧ (∀ x ∈ [(1 / 2 : ℚ)], -(999 / 1000 : ℚ) ≤ x ∧ x ≤ 999 / 1000)
    ∧ (∃ out : List ℚ,
        (decode (createBlob [(1 / 2 : ℚ)]).data).map (fun bytes => decodeAudioData bytes 1)
          = some (.ok [out])
        ∧ out.length = [(1 / 2 : ℚ)].length
        ∧ ∀ i, i < [(1 / 2 : ℚ)].length →
            |out.getD i 0 - [(1 / 2 : ℚ)].getD i 0| ≤ 1 / 32768) :=
  ⟨by simp,
   by intro x hx; rw [List.mem_singleton] at hx; subst hx; constructor <;> norm_num,
   c1_codec_roundtrip_amended [(1 / 2 : ℚ)] (by simp)
     (by intro x hx; rw [List.mem_singleton] at hx; subst hx; constructor <;> norm_num)⟩

end LiveTranslate
